import Mathlib

/-!
Verification of the core logic of the PlantUML viewer (Go sources):
single-instance lock manager, IPC connection handling, file-list
validation, the per-file change monitor, and the session registry of
open tabs. Each Go function relevant to the checked properties is
shallowly embedded as an executable Lean definition; effects on the
file system, the advisory lock and the tab widget are made explicit as
state passed in and out.
-/

namespace PlantumlViewer

/-! ## Lock manager (main.go: isAppRunning / createLockFile / removeLockFile)

The world visible to the lock manager: the lock file
`/tmp/plantumlviewer.lock` (its byte contents, or absent), whether some
live open file description currently holds the exclusive `flock` on it,
and the process-global `lockFileHandle` (`some ()` when the handle is
set and holding the lock, `none` when it is nil). File contents are
byte lists, written as `List Char`. -/
structure LockSt where
  file : Option (List Char)
  flocked : Bool
  heldBySelf : Bool
  handle : Option Unit
deriving DecidableEq

/-- Embeds `isAppRunning` (main.go:209-241). `openFails` stands for
`os.OpenFile(lockFile, os.O_RDWR, 0644)` failing with an error other
than "does not exist" (the code then assumes the app is not running).
Branches, in source order: file absent -> `false`; open error ->
`false`; `syscall.Flock(LOCK_EX|LOCK_NB)` fails because the lock is
held -> `true`; lock acquired -> the lock file is stale, so the
just-acquired lock is released (`LOCK_UN`), the handle closed, and the
file removed, returning `false`. -/
def isAppRunning (st : LockSt) (openFails : Bool) : Bool × LockSt :=
  match st.file with
  | none => (false, st)
  | some _ =>
    if openFails then (false, st)
    else if st.flocked then (true, st)
    else (false, { st with file := none, flocked := false })

/-- Writing with `fmt.Fprintf` on a handle freshly opened with `O_CREATE|O_RDWR`
(no `O_TRUNC`): the bytes are written at offset 0 over whatever the
file already contained; content beyond the written bytes survives. -/
def writeAtStart (old new : List Char) : List Char :=
  new ++ old.drop new.length

/-- Embeds `createLockFile` (main.go:244-269). `pidStr` is the decimal
rendering of `os.Getpid()` that `fmt.Fprintf(lockFileHandle, "%d", pid)`
writes. Open with `O_CREATE|O_RDWR` creates an empty file when absent
and otherwise keeps the existing contents; on open failure the handle
stays nil; if the non-blocking exclusive flock fails the handle is
closed and reset to nil; otherwise the pid is written at offset 0. -/
def createLockFile (pidStr : List Char) (openFails : Bool) (st : LockSt) : LockSt :=
  if openFails then { st with handle := none }
  else
    let contents0 := st.file.getD []
    if st.flocked then { st with file := some contents0, handle := none }
    else
      { st with file := some (writeAtStart contents0 pidStr),
                flocked := true, heldBySelf := true, handle := some () }

/-- Embeds `removeLockFile` (main.go:272-287): when the handle is nil
this is a no-op; otherwise it unlocks, closes the handle, removes the
lock file and resets the handle to nil. -/
def removeLockFile (st : LockSt) : LockSt :=
  match st.handle with
  | none => st
  | some _ =>
    { st with file := none, flocked := false, heldBySelf := false, handle := none }

/-- C1: `isAppRunning` returns false when the lock file does not exist;
returns true when the file exists and the non-blocking exclusive
advisory lock cannot be acquired; and when the file exists but the lock
is acquired (stale lock) it releases the just-acquired lock, deletes
the lock file and returns false. -/
theorem isAppRunning_cases :
    ∀ (c : List Char) (fl hs : Bool) (h : Option Unit) (oe : Bool),
      isAppRunning ⟨none, fl, hs, h⟩ oe = (false, ⟨none, fl, hs, h⟩)
      ∧ isAppRunning ⟨some c, true, hs, h⟩ false = (true, ⟨some c, true, hs, h⟩)
      ∧ isAppRunning ⟨some c, false, hs, h⟩ false = (false, ⟨none, false, hs, h⟩) := by
  intro c fl hs h oe
  refine ⟨rfl, rfl, rfl⟩

/-- C8 counterexample: acquiring over a pre-existing (stale, unlocked)
lock file whose old contents are longer than the new pid leaves residual
bytes after the pid, because the file is opened without truncation.
Old contents "12345", new pid "99": the file ends up as "99345", not
"99". -/
theorem createLockFile_residual_bytes :
    (createLockFile ['9', '9'] false
        ⟨some ['1', '2', '3', '4', '5'], false, false, none⟩).file
      = some ['9', '9', '3', '4', '5']
    ∧ (['9', '9', '3', '4', '5'] : List Char) ≠ ['9', '9'] := by
  exact ⟨rfl, by decide⟩

/-- C8 amended: when the lock file does not already exist (as in the
program's launch sequence, where `isAppRunning` has already deleted any
stale file) and the lock is free, a successful acquire leaves the file
containing exactly the caller's pid, and a subsequent release unlocks,
clears the handle and leaves no lock file on disk. -/
theorem acquire_release_clean (pidStr : List Char) (st : LockSt)
    (hfile : st.file = none) (hlock : st.flocked = false) :
    (createLockFile pidStr false st).file = some pidStr
    ∧ (createLockFile pidStr false st).handle = some ()
    ∧ (removeLockFile (createLockFile pidStr false st)).file = none
    ∧ (removeLockFile (createLockFile pidStr false st)).handle = none := by
  simp [createLockFile, removeLockFile, hfile, hlock, writeAtStart]

/-- Witness for `acquire_release_clean` at a concrete state. -/
theorem acquire_release_clean_check :
    (⟨none, false, false, none⟩ : LockSt).file = none
    ∧ (⟨none, false, false, none⟩ : LockSt).flocked = false
    ∧ ((createLockFile ['7'] false ⟨none, false, false, none⟩).file = some ['7']
        ∧ (createLockFile ['7'] false ⟨none, false, false, none⟩).handle = some ()
        ∧ (removeLockFile (createLockFile ['7'] false ⟨none, false, false, none⟩)).file = none
        ∧ (removeLockFile (createLockFile ['7'] false ⟨none, false, false, none⟩)).handle = none) :=
  ⟨rfl, rfl, acquire_release_clean ['7'] ⟨none, false, false, none⟩ rfl rfl⟩

/-! ## File validation (main.go: validateFiles)

The file system as the validator sees it: `stat` yields file metadata
(or `none` on any stat error, including "does not exist"), and `abs`
is `filepath.Abs`, which can in principle fail (`none`), in which case
the original path is kept. -/
structure StatR where
  isDir : Bool
deriving DecidableEq

structure FS where
  stat : String → Option StatR
  abs : String → Option String

/-- Embeds `validateFiles` (main.go:445-477): for each candidate, a
stat error drops it, a directory drops it, the extension check only
logs a warning (the file is kept regardless of extension), the path is
replaced by its absolute form when `filepath.Abs` succeeds, and the
survivor is appended in order. The function never fails. -/
def validateFiles (fs : FS) : List String → List String
  | [] => []
  | f :: rest =>
    match fs.stat f with
    | none => validateFiles fs rest
    | some info =>
      if info.isDir then validateFiles fs rest
      else ((fs.abs f).getD f) :: validateFiles fs rest

/-- C7: validation returns exactly the sublist of candidates that exist
(stat succeeds) and are not directories, each normalized via
`filepath.Abs` (kept as-is if `Abs` fails), preserving the relative
order of the survivors; extensions are irrelevant to the result, and
the function is total (never raises). -/
theorem validateFiles_characterization (fs : FS) (files : List String) :
    validateFiles fs files
      = (files.filter (fun f =>
            match fs.stat f with
            | none => false
            | some info => !info.isDir)).map (fun f => (fs.abs f).getD f) := by
  induction files with
  | nil => rfl
  | cons f rest ih =>
    cases hstat : fs.stat f with
    | none => simp [validateFiles, hstat, List.filter_cons, ih]
    | some info =>
      cases hdir : info.isDir <;>
        simp [validateFiles, hstat, hdir, List.filter_cons, ih]

/-! ## IPC connection handling (main.go: handleIPCConnection,
sendFilesToRunningInstance, and the forwarding branch of main) -/

/-- The fixed receive buffer size of the IPC server (main.go:330). -/
def bufSize : Nat := 4096

/-- Embeds `strings.Split(s, "\n")`: split on every newline, keeping
empty segments (Go's Split never drops empty fields). -/
def splitNL : List Char → List (List Char)
  | [] => [[]]
  | c :: rest =>
    match splitNL rest with
    | [] => [[]]
    | s :: ss => if c = '\n' then [] :: s :: ss else (c :: s) :: ss

/-- Embeds `handleIPCConnection` (main.go:319-391). `readRes` is the
outcome of the single `conn.Read` into the 4096-byte buffer: `none`
when the read errors (the handler then writes an error token and
returns without acknowledging), `some raw` when it returns the first
`min (raw.length) 4096` bytes of the client's payload. `uiReady`
models the `mainUI != nil` guard. The result is the token written back
on the connection and the list of files handed to the registry; the
acknowledgement `"OK"` is written at the end of the handler regardless
of whether any valid file was found or the UI was ready. -/
def handleIPCConnection (fs : FS) (uiReady : Bool) (readRes : Option (List Char)) :
    Option String × List String :=
  match readRes with
  | none => (some "ERROR: read failed", [])
  | some raw =>
    let data := raw.take bufSize
    let fileList := (splitNL data).map (fun cs => String.mk cs)
    let validFiles := validateFiles fs fileList
    let opened := if validFiles.isEmpty then [] else if uiReady then validFiles else []
    (some "OK", opened)

/-- C6: whenever the payload is read successfully, the handler writes
back the acknowledgement token "OK" — also when the request contains no
valid files (the registry is then untouched) and when the registry/UI
is not yet ready — so the client never hangs waiting for the
acknowledgement. -/
theorem handleIPC_always_acks (fs : FS) (uiReady : Bool) (raw : List Char) :
    (handleIPCConnection fs uiReady (some raw)).1 = some "OK" := rfl

/-- C10: the handler reads with a single `Read` into a fixed 4096-byte
buffer, so for any payload already filling the buffer, bytes appended
beyond the 4096-byte boundary change nothing: they are neither split on
newlines nor validated (and a path straddling the boundary is parsed as
the truncated path formed by its first bytes). -/
theorem handleIPC_ignores_past_buffer (fs : FS) (uiReady : Bool)
    (payload extra : List Char) (hlen : bufSize ≤ payload.length) :
    handleIPCConnection fs uiReady (some (payload ++ extra))
      = handleIPCConnection fs uiReady (some payload) := by
  simp only [handleIPCConnection, List.take_append_of_le_length hlen]

/-- Witness for `handleIPC_ignores_past_buffer` on a buffer-filling
payload with one extra byte. -/
theorem handleIPC_ignores_past_buffer_check :
    bufSize ≤ (List.replicate bufSize 'a').length
    ∧ handleIPCConnection ⟨fun _ => none, fun _ => none⟩ true
          (some (List.replicate bufSize 'a' ++ ['b']))
        = handleIPCConnection ⟨fun _ => none, fun _ => none⟩ true
            (some (List.replicate bufSize 'a')) :=
  ⟨by simp, handleIPC_ignores_past_buffer _ _ _ _ (by simp)⟩

/-- Outcome of `sendFilesToRunningInstance` (main.go:394-442): the
client returns immediately on an empty list, gives up silently (logs
and returns, no retry, no error surfaced) when the 3-second
`net.DialTimeout` fails, and otherwise writes the newline-joined list
and waits for the acknowledgement. -/
inductive SendOutcome
  | skippedEmpty
  | connectFailed
  | sent
deriving DecidableEq

/-- The client's connect timeout, milliseconds (main.go:402). -/
def dialTimeoutMs : Nat := 3000

/-- Embeds `sendFilesToRunningInstance` (main.go:394-442); `connectOk`
is whether `net.DialTimeout("unix", ipcAddr, 3*time.Second)` succeeds
within `dialTimeoutMs`. -/
def sendFilesToRunningInstance (files : List String) (connectOk : Bool) : SendOutcome :=
  if files.isEmpty then .skippedEmpty
  else if connectOk then .sent
  else .connectFailed

/-- What the launching process does after the single-instance check
(main.go:80-94). -/
inductive LaunchAction
  | exitCode (n : Nat)
  | startNewInstance
deriving DecidableEq

/-- Embeds the forwarding branch of `main` (main.go:80-94): when
`isAppRunning` reports a running instance, the process forwards the
file list, sleeps 500ms, and exits with status 0 — regardless of
whether the connection succeeded; only when no instance is running does
it proceed to create the lock and start a new instance. -/
def mainLaunch (running connectOk : Bool) (files : List String) : LaunchAction :=
  if running then
    let _ := sendFilesToRunningInstance files connectOk
    .exitCode 0
  else .startNewInstance

/-- C9 counterexample: with a running instance detected and the connect
attempt failing, the launching process exits with code 0; it does not
fall back to starting a new instance. -/
theorem mainLaunch_no_fallback :
    mainLaunch true false ["f.puml"] = .exitCode 0
    ∧ mainLaunch true false ["f.puml"] ≠ LaunchAction.startNewInstance := by
  exact ⟨rfl, by decide⟩

/-- C9 amended: when the forwarding launch fails to connect within the
bounded (≈3s) timeout, the client gives up silently — the send returns
without raising or retrying — and the caller then exits with status 0
without starting a new instance. -/
theorem mainLaunch_forward_exits (files : List String) (hne : files ≠ []) :
    sendFilesToRunningInstance files false = .connectFailed
    ∧ ∀ c : Bool, mainLaunch true c files = .exitCode 0 := by
  constructor
  · simp [sendFilesToRunningInstance, hne]
  · intro c; rfl

/-- Witness for `mainLaunch_forward_exits` at a one-element file list. -/
theorem mainLaunch_forward_exits_check :
    (["f.puml"] : List String) ≠ []
    ∧ (sendFilesToRunningInstance ["f.puml"] false = .connectFailed
        ∧ ∀ c : Bool, mainLaunch true c ["f.puml"] = .exitCode 0) :=
  ⟨by decide, mainLaunch_forward_exits ["f.puml"] (by decide)⟩

/-! ## File watcher (plantuml/viewer.go: monitorFile / StopMonitoring)

One iteration of the 500ms polling loop is embedded as a pure function
of the watcher state and the tick's observations; times are in
milliseconds. -/

/-- Watcher state carried across poll ticks: the cached file content
(`v.content`), `v.lastModified`, the local `lastSize`, and the local
`lastRefreshTime` of `monitorFile`. -/
structure WatchState where
  content : String
  lastModified : Int
  lastSize : Int
  lastRefreshTime : Int
deriving DecidableEq

/-- Result of `os.Stat` on the watched file. -/
structure StatInfo where
  size : Int
  modTime : Int
deriving DecidableEq

/-- The minimum interval between two triggered reloads
(`refreshCooldown = 1 * time.Second`, viewer.go:352). -/
def cooldownMs : Int := 1000

/-- Outcome of one poll tick: the updated watcher state, how many
reloads (`go v.renderPlantUML()`) were started, and how many times the
registered change callback was invoked. -/
structure TickResult where
  st : WatchState
  reloads : Nat
  callbacks : Nat
deriving DecidableEq

/-- Embeds one `ticker.C` iteration of `monitorFile`
(viewer.go:361-416). `statRes` is the `os.Stat` outcome (`none` on
error: the tick is skipped); `readRes` is the `ioutil.ReadFile` outcome
(`none` on error: the tick is skipped). A reload is triggered only when
the size differs or the modification time is strictly newer than the
last-known one, the 1s cooldown since the last triggered reload has
elapsed, and the re-read content differs from the cached content; it
then updates the cached content, mtime, size and refresh time, starts
exactly one render and invokes the change callback once (when one is
registered, `hasCallback`). -/
def pollTick (st : WatchState) (now : Int) (statRes : Option StatInfo)
    (readRes : Option String) (hasCallback : Bool) : TickResult :=
  match statRes with
  | none => ⟨st, 0, 0⟩
  | some info =>
    if (info.size ≠ st.lastSize ∨ st.lastModified < info.modTime)
        ∧ cooldownMs < now - st.lastRefreshTime then
      match readRes with
      | none => ⟨st, 0, 0⟩
      | some newContent =>
        if newContent ≠ st.content then
          ⟨{ content := newContent, lastModified := info.modTime,
             lastSize := info.size, lastRefreshTime := now }, 1,
           if hasCallback then 1 else 0⟩
        else ⟨st, 0, 0⟩
    else ⟨st, 0, 0⟩

/-- C4 counterexample: the code's trigger condition compares the
modification time with `After` (strictly newer), not "differs". With
the size unchanged and an mtime that differs by being *older* than the
last-known one (file replaced by an older copy), the cooldown elapsed
and the content genuinely changed, no reload and no callback happen —
though the claim's conditions (size or mtime differs, cooldown elapsed,
content differs) all hold. -/
theorem pollTick_older_mtime_no_reload :
    pollTick ⟨"old", 100, 5, 0⟩ 5000 (some ⟨5, 50⟩) (some "new") true
        = ⟨⟨"old", 100, 5, 0⟩, 0, 0⟩
    ∧ (50 : Int) ≠ 100
    ∧ cooldownMs < (5000 : Int) - 0
    ∧ ("new" : String) ≠ "old" := by
  refine ⟨?_, by decide, by decide, by decide⟩
  simp [pollTick]

/-- C4 amended: a reload is triggered on a tick exactly when the
stat-observed size differs from the last-known size or the modification
time is strictly newer than the last-known one, the ≈1s cooldown has
elapsed since the last triggered reload, and the re-read content
differs from the cached content. A touched file with identical content
triggers no reload; a tick that does trigger starts exactly one reload
and invokes the change callback exactly once; a stat error triggers
nothing. -/
theorem pollTick_reload_iff (st : WatchState) (now : Int) (info : StatInfo)
    (readRes : Option String) :
    ((pollTick st now (some info) readRes true).reloads = 1
      ↔ ((info.size ≠ st.lastSize ∨ st.lastModified < info.modTime)
          ∧ cooldownMs < now - st.lastRefreshTime
          ∧ ∃ c, readRes = some c ∧ c ≠ st.content))
    ∧ (pollTick st now (some info) readRes true).callbacks
        = (pollTick st now (some info) readRes true).reloads
    ∧ (pollTick st now (some info) readRes true).reloads ≤ 1
    ∧ (pollTick st now (some info) (some st.content) true).reloads = 0
    ∧ (pollTick st now none readRes true).reloads = 0 := by
  unfold pollTick
  by_cases hcond : (info.size ≠ st.lastSize ∨ st.lastModified < info.modTime)
      ∧ cooldownMs < now - st.lastRefreshTime
  · cases readRes with
    | none => simp [hcond]
    | some c =>
      by_cases hc : c = st.content
      · subst hc
        simp [hcond]
      · simp [hcond, hc]
  · cases readRes with
    | none => simp [hcond]
    | some c =>
      simp [hcond]
      intro hA hB
      exact absurd ⟨hA, hB⟩ hcond

/-! ## Watcher stop signal (viewer.go: StopMonitoring, the select loop)

`stopMonitoring` is an unbuffered channel (`make(chan bool)`,
viewer.go:51) and `StopMonitoring` performs a blocking send on it
(viewer.go:419-422). A send on an unbuffered channel completes only
when the receiver side performs a matching receive; the only receive is
the `case <-v.stopMonitoring` arm of the select at the top of the
polling loop, and once that arm fires the loop returns and never
receives again. -/

/-- Where the monitor goroutine is with respect to its stop channel:
blocked in the select at the top of the loop, or returned. A tick being
processed (including an in-flight asynchronous reload, which runs in
its own goroutine) brings the loop back to the select. -/
inductive MonitorPhase
  | selecting
  | stopped
deriving DecidableEq

/-- Events the select loop consumes. -/
inductive MonitorEvent
  | tick
  | stopSignal
deriving DecidableEq

/-- One step of the `monitorFile` loop: a tick is processed (any reload
is spawned asynchronously) and the loop re-enters the select; a
received stop signal makes the loop return; a returned loop consumes
nothing further. -/
def monitorStep : MonitorPhase → MonitorEvent → MonitorPhase
  | .selecting, .tick => .selecting
  | .selecting, .stopSignal => .stopped
  | .stopped, _ => .stopped

/-- The blocking send performed by `StopMonitoring`: it completes (and
the loop transitions to `stopped`) exactly when the loop still reaches
the select; after the loop has returned there is no receiver, so the
send never completes and the caller blocks forever (`none`). -/
def stopMonitoringSend : MonitorPhase → Option MonitorPhase
  | .selecting => some .stopped
  | .stopped => none

/-- C5 counterexample: a first `StopMonitoring` terminates the loop at
the next poll boundary, but a second invocation — issued after the loop
has returned — finds no receiver on the unbuffered channel and never
completes: it is not a no-op, it deadlocks the caller. -/
theorem stopMonitoring_second_call_blocks :
    stopMonitoringSend .selecting = some .stopped
    ∧ monitorStep .selecting .stopSignal = .stopped
    ∧ stopMonitoringSend .stopped = none := by
  exact ⟨rfl, rfl, rfl⟩

/-- C5 amended: for a watcher in the Watching state, signalling the
stop channel terminates the polling loop at the next poll boundary, and
a stop issued while a reload is in flight is still received (the reload
runs asynchronously and the loop is back in its select). But stopping
is not idempotent: once the loop has returned it never receives again
(on any further event sequence), so a second `StopMonitoring` blocks
its caller forever. -/
theorem stopMonitoring_behaviour :
    stopMonitoringSend .selecting = some .stopped
    ∧ monitorStep .selecting .tick = .selecting
    ∧ (∀ evs : List MonitorEvent,
        evs.foldl monitorStep .stopped = .stopped)
    ∧ stopMonitoringSend .stopped = none := by
  refine ⟨rfl, rfl, ?_, rfl⟩
  intro evs
  induction evs with
  | nil => rfl
  | cons e rest ih =>
    have hstep : monitorStep .stopped e = .stopped := by cases e <;> rfl
    simpa [List.foldl, hstep] using ih

/-! ## Session registry (unnamed ui.go revision referenced by main.go:
MainUI with exported Tabs/OpenedFiles, viewers map, OpenFileWithOptions,
and the Tabs.OnClosed handler)

The registry state: the `OpenedFiles` map (path -> tab index, embedded
as an association list whose order is the Go map's iteration order),
the `Tabs.Items` list, the `viewers` map (path -> viewer), viewer
identity as a `Nat` id, the ids of viewers whose monitoring has been
stopped, a counter supplying fresh viewer ids, the selected tab index
and the window title. -/

/-- One `container.TabItem`: its displayed text and its content
(identified by the id of the viewer whose canvas it wraps). -/
structure TabItem where
  text : String
  content : Nat
deriving DecidableEq

structure UIState where
  openedFiles : List (String × Nat)
  tabs : List TabItem
  viewers : List (String × Nat)
  stopped : List Nat
  nextViewerId : Nat
  selected : Nat
  title : String
deriving DecidableEq

/-- Go map read `m[p]` on an association list. -/
def lookupIdx : List (String × Nat) → String → Option Nat
  | [], _ => none
  | (q, v) :: rest, p => if q = p then some v else lookupIdx rest p

/-- Go map `delete(m, p)`. -/
def removeKey : List (String × Nat) → String → List (String × Nat)
  | [], _ => []
  | (q, v) :: rest, p => if q = p then removeKey rest p else (q, v) :: removeKey rest p

/-- Replace the element at an index, leaving the list unchanged when
the index is out of range (`ui.Tabs.Items[tabIndex].Content = ...`). -/
def modifyAt {α : Type} (f : α → α) : Nat → List α → List α
  | _, [] => []
  | 0, x :: xs => f x :: xs
  | n + 1, x :: xs => x :: modifyAt f n xs

/-- Embeds `filepath.Base` for the non-empty, non-slash-terminated
paths the program handles: the last slash-separated component. -/
def baseName (p : String) : String :=
  String.mk (p.data.foldl (fun acc c => if c = '/' then [] else acc ++ [c]) [])

/-- Embeds `filepath.Ext`: the suffix beginning at the final dot of the
last path element, or the empty string when there is none. -/
def extOf (fileName : String) : String :=
  let rev := fileName.data.reverse
  let tail := rev.takeWhile (fun c => !(c == '.') && !(c == '/'))
  match rev.drop tail.length with
  | '.' :: _ => String.mk ('.' :: tail.reverse)
  | _ => ""

/-- Embeds `truncateFileName` (ui.go): names no longer than `maxLength`
pass through; longer ones keep a prefix of the stem, an ellipsis, and
the extension, retaining at least 10 stem characters. -/
def truncateFileName (fileName : String) (maxLength : Nat) : String :=
  if fileName.length ≤ maxLength then fileName
  else
    let ext := extOf fileName
    let baseN := String.mk (fileName.data.take (fileName.length - ext.length))
    let keep : Int := (maxLength : Int) - 3 - (ext.length : Int)
    let keep := if keep < 10 then 10 else keep
    String.mk (baseN.data.take keep.toNat) ++ "..." ++ ext

/-- The refresh path of `OpenFileWithOptions` stops the old viewer's
monitoring and drops it from the `viewers` map before a new viewer is
created. -/
def stopViewerFor (st : UIState) (p : String) : UIState :=
  match lookupIdx st.viewers p with
  | some oldId =>
    { st with stopped := st.stopped ++ [oldId], viewers := removeKey st.viewers p }
  | none => st

/-- The not-yet-open branch of `OpenFileWithOptions`: create a viewer
(when `plantuml.NewViewer` succeeds), append a tab whose text is the
truncated base name, record the path at index `len(Items) - 1`, and
select the new tab and retitle the window when `selectTab` is set. On
viewer-creation failure the error is logged and nothing changes. -/
def openNewFile (viewerOk : Bool) (st : UIState) (filePath : String)
    (selectTab : Bool) : UIState :=
  if viewerOk then
    let newId := st.nextViewerId
    let fileName := baseName filePath
    let tabs' := st.tabs ++ [⟨truncateFileName fileName 30, newId⟩]
    { st with
      tabs := tabs',
      viewers := st.viewers ++ [(filePath, newId)],
      nextViewerId := newId + 1,
      openedFiles := st.openedFiles ++ [(filePath, tabs'.length - 1)],
      selected := if selectTab then tabs'.length - 1 else st.selected,
      title := if selectTab then "PlantUML Viewer - " ++ fileName else st.title }
  else st

/-- The body of `OpenFileWithOptions` after path normalization. When
the path already has an entry with a valid tab index: optionally select
that tab, stop and drop the old viewer, and (when the new
`plantuml.NewViewer` succeeds) record a fresh viewer for the path and
replace the slot's content in place. When the recorded index is out of
range, the record is deleted and the function recurses; the recursive
call then finds no entry, so it is inlined here as the not-yet-open
branch on the cleaned state. -/
def openFileResolved (viewerOk : Bool) (st : UIState) (filePath : String)
    (selectTab : Bool) : UIState :=
  match lookupIdx st.openedFiles filePath with
  | some tabIndex =>
    if tabIndex < st.tabs.length then
      let st1 := if selectTab then { st with selected := tabIndex } else st
      let st2 := stopViewerFor st1 filePath
      if viewerOk then
        let newId := st2.nextViewerId
        { st2 with
          viewers := st2.viewers ++ [(filePath, newId)],
          nextViewerId := newId + 1,
          tabs := modifyAt (fun t => { t with content := newId }) tabIndex st2.tabs }
      else st2
    else
      openNewFile viewerOk
        { st with openedFiles := removeKey st.openedFiles filePath } filePath selectTab
  | none => openNewFile viewerOk st filePath selectTab

/-- Embeds `OpenFileWithOptions` (the ui.go revision used by main.go):
normalize the path with `filepath.Abs` (keeping it unchanged on
failure), then dispatch on whether it is already open. -/
def openFileWithOptions (fs : FS) (viewerOk : Bool) (st : UIState)
    (filePath0 : String) (selectTab : Bool) : UIState :=
  openFileResolved viewerOk st ((fs.abs filePath0).getD filePath0) selectTab

/-- A key is absent after `delete`. -/
theorem lookupIdx_removeKey (m : List (String × Nat)) (p : String) :
    lookupIdx (removeKey m p) p = none := by
  induction m with
  | nil => rfl
  | cons e rest ih =>
    obtain ⟨q, v⟩ := e
    by_cases hq : q = p
    · simp [removeKey, hq, ih]
    · simp [removeKey, lookupIdx, hq, ih]

/-- Lookup skips a prefix that does not bind the key. -/
theorem lookupIdx_append_none {m : List (String × Nat)} {p : String}
    (h : lookupIdx m p = none) (m' : List (String × Nat)) :
    lookupIdx (m ++ m') p = lookupIdx m' p := by
  induction m with
  | nil => rfl
  | cons e rest ih =>
    obtain ⟨q, v⟩ := e
    by_cases hq : q = p
    · simp [lookupIdx, hq] at h
    · simp only [lookupIdx, hq, List.cons_append, if_neg hq] at h ⊢
      exact ih h

theorem modifyAt_length {α : Type} (f : α → α) (n : Nat) (l : List α) :
    (modifyAt f n l).length = l.length := by
  induction l generalizing n with
  | nil => cases n <;> rfl
  | cons x xs ih =>
    cases n with
    | zero => rfl
    | succ m => simp [modifyAt, ih]

theorem modifyAt_get_self {α : Type} (f : α → α) (n : Nat) (l : List α) :
    (modifyAt f n l).get? n = (l.get? n).map f := by
  induction l generalizing n with
  | nil => cases n <;> rfl
  | cons x xs ih =>
    cases n with
    | zero => rfl
    | succ m => simpa [modifyAt] using ih m

/-- Stopping a viewer only touches the viewers map and the stopped set. -/
theorem stopViewerFor_frame (st : UIState) (p : String) :
    (stopViewerFor st p).openedFiles = st.openedFiles
    ∧ (stopViewerFor st p).tabs = st.tabs
    ∧ (stopViewerFor st p).nextViewerId = st.nextViewerId
    ∧ (stopViewerFor st p).selected = st.selected := by
  unfold stopViewerFor
  cases lookupIdx st.viewers p <;> simp

theorem stopViewerFor_viewers (st : UIState) (p : String) :
    lookupIdx (stopViewerFor st p).viewers p = none := by
  unfold stopViewerFor
  cases h : lookupIdx st.viewers p with
  | none => simpa using h
  | some vid => simp [lookupIdx_removeKey]

theorem stopViewerFor_stopped {st : UIState} {p : String} {oldId : Nat}
    (h : lookupIdx st.viewers p = some oldId) :
    (stopViewerFor st p).stopped = st.stopped ++ [oldId] := by
  unfold stopViewerFor
  rw [h]

/-- Reduction of the refresh branch of `openFileResolved`: when the
path is recorded at a valid tab index, the result is the stop-and-
replace update of the (optionally reselected) state. -/
theorem openFileResolved_refresh (st : UIState) (p : String) (b : Bool) (k : Nat)
    (hk : lookupIdx st.openedFiles p = some k) (hvalid : k < st.tabs.length) :
    openFileResolved true st p b
      = { stopViewerFor (if b then { st with selected := k } else st) p with
          viewers :=
            (stopViewerFor (if b then { st with selected := k } else st) p).viewers
              ++ [(p, (stopViewerFor
                    (if b then { st with selected := k } else st) p).nextViewerId)],
          nextViewerId :=
            (stopViewerFor
              (if b then { st with selected := k } else st) p).nextViewerId + 1,
          tabs := modifyAt
            (fun t => { t with content :=
              (stopViewerFor
                (if b then { st with selected := k } else st) p).nextViewerId })
            k (stopViewerFor (if b then { st with selected := k } else st) p).tabs } := by
  unfold openFileResolved
  rw [hk]
  simp [hvalid]

/-- C3: opening a path that already has a registry entry (with its
recorded tab index valid, as the registry invariant guarantees) creates
no second slot and no second mapping entry: the `OpenedFiles` map is
unchanged (same number of open entries), the tab list keeps its length,
the slot's content is replaced in place by the fresh viewer, the old
viewer's monitoring is stopped, the fresh render+watch pair is recorded
for the path, and the slot is selected exactly when requested. -/
theorem reopen_existing_path (fs : FS) (st : UIState) (p0 p : String) (b : Bool)
    (k : Nat) (habs : (fs.abs p0).getD p0 = p)
    (hk : lookupIdx st.openedFiles p = some k)
    (hvalid : k < st.tabs.length) :
    (openFileWithOptions fs true st p0 b).openedFiles = st.openedFiles
    ∧ (openFileWithOptions fs true st p0 b).tabs.length = st.tabs.length
    ∧ ((openFileWithOptions fs true st p0 b).tabs.get? k).map (fun t => t.content)
        = some st.nextViewerId
    ∧ lookupIdx (openFileWithOptions fs true st p0 b).viewers p
        = some st.nextViewerId
    ∧ (openFileWithOptions fs true st p0 b).nextViewerId = st.nextViewerId + 1
    ∧ (b = true → (openFileWithOptions fs true st p0 b).selected = k)
    ∧ (∀ oldId, lookupIdx st.viewers p = some oldId →
        (openFileWithOptions fs true st p0 b).stopped = st.stopped ++ [oldId]) := by
  have hopen : openFileWithOptions fs true st p0 b = openFileResolved true st p b := by
    simp only [openFileWithOptions, habs]
  rw [hopen, openFileResolved_refresh st p b k hk hvalid]
  cases b with
  | false =>
    simp only [if_neg Bool.false_ne_true]
    obtain ⟨hof, htabs, hnext, hsel⟩ := stopViewerFor_frame st p
    refine ⟨hof, ?_, ?_, ?_, by rw [hnext], ?_, ?_⟩
    · show (modifyAt (fun t =>
          { t with content := (stopViewerFor st p).nextViewerId }) k
            (stopViewerFor st p).tabs).length = st.tabs.length
      rw [modifyAt_length, htabs]
    · show ((modifyAt (fun t =>
          { t with content := (stopViewerFor st p).nextViewerId }) k
            (stopViewerFor st p).tabs).get? k).map (fun t => t.content)
          = some st.nextViewerId
      rw [modifyAt_get_self, htabs, hnext]
      cases hget : st.tabs.get? k with
      | none => exact absurd (List.get?_eq_none.mp hget) (by omega)
      | some t => simp
    · show lookupIdx ((stopViewerFor st p).viewers
          ++ [(p, (stopViewerFor st p).nextViewerId)]) p = some st.nextViewerId
      rw [lookupIdx_append_none (stopViewerFor_viewers st p)]
      simp [lookupIdx, hnext]
    · intro h; exact absurd h Bool.false_ne_true
    · intro oldId hold
      exact stopViewerFor_stopped hold
  | true =>
    simp only [reduceIte]
    obtain ⟨hof, htabs, hnext, hsel⟩ :=
      stopViewerFor_frame { st with selected := k } p
    refine ⟨hof, ?_, ?_, ?_, by rw [hnext], ?_, ?_⟩
    · show (modifyAt (fun t =>
          { t with content := (stopViewerFor { st with selected := k } p).nextViewerId })
            k (stopViewerFor { st with selected := k } p).tabs).length = st.tabs.length
      rw [modifyAt_length, htabs]
    · show ((modifyAt (fun t =>
          { t with content := (stopViewerFor { st with selected := k } p).nextViewerId })
            k (stopViewerFor { st with selected := k } p).tabs).get? k).map
              (fun t => t.content) = some st.nextViewerId
      rw [modifyAt_get_self, htabs, hnext]
      cases hget : st.tabs.get? k with
      | none => exact absurd (List.get?_eq_none.mp hget) (by omega)
      | some t => simp
    · show lookupIdx ((stopViewerFor { st with selected := k } p).viewers
          ++ [(p, (stopViewerFor { st with selected := k } p).nextViewerId)]) p
            = some st.nextViewerId
      rw [lookupIdx_append_none (stopViewerFor_viewers { st with selected := k } p)]
      simp [lookupIdx, hnext]
    · intro _; exact hsel
    · intro oldId hold
      exact stopViewerFor_stopped hold

/-- Witness for `reopen_existing_path` at a concrete one-slot state. -/
theorem reopen_existing_path_check :
    ((⟨fun _ => none, fun _ => none⟩ : FS).abs "f").getD "f" = "f"
    ∧ lookupIdx [("f", 0)] "f" = some 0
    ∧ 0 < ([⟨"f", 5⟩] : List TabItem).length
    ∧ ((openFileWithOptions ⟨fun _ => none, fun _ => none⟩ true
          ⟨[("f", 0)], [⟨"f", 5⟩], [("f", 5)], [], 6, 0, "t"⟩ "f" true).openedFiles
            = [("f", 0)]
        ∧ (openFileWithOptions ⟨fun _ => none, fun _ => none⟩ true
            ⟨[("f", 0)], [⟨"f", 5⟩], [("f", 5)], [], 6, 0, "t"⟩ "f" true).tabs.length
              = ([⟨"f", 5⟩] : List TabItem).length
        ∧ ((openFileWithOptions ⟨fun _ => none, fun _ => none⟩ true
            ⟨[("f", 0)], [⟨"f", 5⟩], [("f", 5)], [], 6, 0, "t"⟩ "f" true).tabs.get?
              0).map (fun t => t.content) = some 6
        ∧ lookupIdx (openFileWithOptions ⟨fun _ => none, fun _ => none⟩ true
            ⟨[("f", 0)], [⟨"f", 5⟩], [("f", 5)], [], 6, 0, "t"⟩ "f" true).viewers "f"
              = some 6
        ∧ (openFileWithOptions ⟨fun _ => none, fun _ => none⟩ true
            ⟨[("f", 0)], [⟨"f", 5⟩], [("f", 5)], [], 6, 0, "t"⟩ "f" true).nextViewerId
              = 6 + 1
        ∧ (true = true → (openFileWithOptions ⟨fun _ => none, fun _ => none⟩ true
            ⟨[("f", 0)], [⟨"f", 5⟩], [("f", 5)], [], 6, 0, "t"⟩ "f" true).selected = 0)
        ∧ (∀ oldId, lookupIdx [("f", 5)] "f" = some oldId →
            (openFileWithOptions ⟨fun _ => none, fun _ => none⟩ true
              ⟨[("f", 0)], [⟨"f", 5⟩], [("f", 5)], [], 6, 0, "t"⟩ "f" true).stopped
                = [] ++ [oldId])) :=
  ⟨rfl, rfl, by decide,
    reopen_existing_path ⟨fun _ => none, fun _ => none⟩
      ⟨[("f", 0)], [⟨"f", 5⟩], [("f", 5)], [], 6, 0, "t"⟩ "f" "f" true 0
      rfl rfl (by decide)⟩

/-! ## Tab-close handler (the Tabs.OnClosed callback in InitializeUI)

The `DocTabs` container removes the closed tab from `Items` and then
invokes `OnClosed` with the removed item; the handler therefore runs
against the post-removal `Items` list (which is also why it defends
against out-of-range recorded indices and why the
`ui.Tabs.Items[index] == item` identity test can no longer match the
removed item). Go map iteration order is unspecified; the association
list's order stands for the iteration order of one execution. -/

/-- The scan loop of the OnClosed handler: walk `OpenedFiles`; a record
whose index is out of range of the (post-removal) `Items` is deleted
outright and the walk continues; a record matching the closed item by
base name or by item identity ends the walk (`break`) and is reported;
otherwise the record is kept. Returns the surviving records and the
entry found for the closed tab, if any. -/
def onClosedFind : List (String × Nat) → List TabItem → TabItem →
    List (String × Nat) × Option (String × Nat)
  | [], _, _ => ([], none)
  | (p, i) :: rest, items, item =>
    if items.length ≤ i then onClosedFind rest items item
    else if baseName p = item.text ∨ items.get? i = some item then
      (rest, some (p, i))
    else
      let r := onClosedFind rest items item
      ((p, i) :: r.1, r.2)

/-- Registry-related state after a tab close. -/
structure CloseResult where
  openedFiles : List (String × Nat)
  viewers : List (String × Nat)
  stopped : List Nat
deriving DecidableEq

/-- Embeds the `Tabs.OnClosed` callback: scan `OpenedFiles` for the
closed tab's record (deleting any out-of-range record encountered on
the way); when found, stop and drop that path's viewer, delete its
mapping, and decrement every remaining index greater than the closed
one; when no record is found, only log (the out-of-range deletions
performed during the scan remain). -/
def onClosed (reg viewers : List (String × Nat)) (stopped : List Nat)
    (items : List TabItem) (item : TabItem) : CloseResult :=
  let scanned := onClosedFind reg items item
  match scanned.2 with
  | none => ⟨scanned.1, viewers, stopped⟩
  | some (closedPath, closedIndex) =>
    let vs := match lookupIdx viewers closedPath with
      | some vid => (removeKey viewers closedPath, stopped ++ [vid])
      | none => (viewers, stopped)
    ⟨scanned.1.map (fun e => if closedIndex < e.2 then (e.1, e.2 - 1) else e),
      vs.1, vs.2⟩

/-- C2: closing slot 0 of 3 on a healthy registry can drop the mapping
of slot 2 entirely instead of decrementing it. The handler runs after
the container removed the closed tab, so `len(Items)` is already 2 and
the record `c.puml -> 2` — a perfectly valid entry — trips the
out-of-range purge when the map iteration happens to visit it before
the closed entry. Final registry: only `b.puml -> 0`; the claim (and
the registry invariant) require `b.puml -> 0, c.puml -> 1`. -/
theorem tabClose_drops_live_mapping :
    onClosed
        [("/t/c.puml", 2), ("/t/a.puml", 0), ("/t/b.puml", 1)]
        [("/t/a.puml", 20), ("/t/b.puml", 21), ("/t/c.puml", 22)] []
        [⟨"b.puml", 11⟩, ⟨"c.puml", 12⟩] ⟨"a.puml", 10⟩
      = ⟨[("/t/b.puml", 0)], [("/t/b.puml", 21), ("/t/c.puml", 22)], [20]⟩
    ∧ lookupIdx
        (onClosed
          [("/t/c.puml", 2), ("/t/a.puml", 0), ("/t/b.puml", 1)]
          [("/t/a.puml", 20), ("/t/b.puml", 21), ("/t/c.puml", 22)] []
          [⟨"b.puml", 11⟩, ⟨"c.puml", 12⟩] ⟨"a.puml", 10⟩).openedFiles
        "/t/c.puml" = none := by
  constructor <;> rfl

end PlantumlViewer
